import Mathlib

/-!
Shallow embedding of `update-digitalocean-dns.py` (repository `neilluna/update-dns`).

The script resolves the host's public IPv4 address, compares it against the
last line of a history log, and — when they differ — updates the configured
DigitalOcean DNS records and appends the new address to the log.

Python string primitives that the script relies on (`str.rstrip`,
`str.split('.')`, `str.split()`, file line iteration) are modelled as
executable functions on `List Char`, restricted to ASCII whitespace.
External effects (the `dig` subprocess, the filesystem, the DigitalOcean
API) are modelled as an explicit environment `Env`; the observable effects
of a run are collected as a list of `Event`s.
-/

namespace UpdateDNS

/-- Python `str.rstrip()`: remove all trailing whitespace characters. -/
def pyRstrip (s : String) : String :=
  String.mk ((s.data.reverse.dropWhile Char.isWhitespace).reverse)

/-- Python `str.split('.')` on a character list: split at every `'.'`,
keeping empty pieces (`''.split('.') == ['']`). `acc` is the current piece,
reversed. -/
def pySplitDotAux (acc : List Char) : List Char → List String
  | [] => [String.mk acc.reverse]
  | c :: cs =>
    if c = '.' then String.mk acc.reverse :: pySplitDotAux [] cs
    else pySplitDotAux (c :: acc) cs

/-- Python `str.split('.')`. -/
def pySplitDot (s : String) : List String := pySplitDotAux [] s.data

/-- Python `str.isdigit()` (restricted to ASCII): nonempty and all digits. -/
def pyIsDigitStr (o : String) : Bool :=
  !o.data.isEmpty && o.data.all Char.isDigit

/-- Python `int(...)` on an all-digit string. -/
def pyInt (o : String) : Nat :=
  o.data.foldl (fun n c => n * 10 + (c.toNat - 48)) 0

/-- One octet check of `get_public_ip_address`:
`octet.isdigit() and 0 <= int(octet) <= 255` (the `< 0` test is vacuous). -/
def isValidOctet (o : String) : Bool :=
  pyIsDigitStr o && pyInt o ≤ 255

/-- The IPv4 validation of `get_public_ip_address`: `ip.split('.')` has
exactly four pieces and every piece is a valid octet. -/
def validIPv4 (s : String) : Bool :=
  (pySplitDot s).length = 4 && (pySplitDot s).all isValidOctet

/-- How a run step ends abnormally: `sys.exit(1)` via `error_and_exit`,
or an uncaught Python exception. -/
inductive Abort
  | exited (msg : String)
  | crashed (msg : String)
deriving DecidableEq, Repr

/-- `DNSUpdater.get_public_ip_address`: fail if `dig` returned non-zero,
otherwise `rstrip` the stdout and validate it as an IPv4 literal. -/
def getPublicIPAddress (returncode : Nat) (stdout : String) : Except Abort String :=
  if returncode ≠ 0 then
    .error (.exited "Error getting public IP address from opendns.com.")
  else if validIPv4 (pyRstrip stdout) then .ok (pyRstrip stdout)
  else .error (.exited ("Invalid public IPv4 address: " ++ pyRstrip stdout))

/-- Python file line iteration: pieces terminated by `'\n'` (newline kept);
a final piece without a newline is kept only if nonempty; an empty file has
no lines. `acc` is the current line, reversed. -/
def pyLinesAux (acc : List Char) : List Char → List String
  | [] => if acc.isEmpty then [] else [String.mk acc.reverse]
  | c :: cs =>
    if c = '\n' then String.mk (acc.reverse ++ ['\n']) :: pyLinesAux [] cs
    else pyLinesAux (c :: acc) cs

/-- Python file line iteration over a file's full content. -/
def pyLines (s : String) : List String := pyLinesAux [] s.data

/-- Python `str.split()` (no argument): split on runs of whitespace,
dropping empty pieces. `acc` is the current token, reversed. -/
def pySplitWsAux (acc : List Char) : List Char → List String
  | [] => if acc.isEmpty then [] else [String.mk acc.reverse]
  | c :: cs =>
    if c.isWhitespace then
      if acc.isEmpty then pySplitWsAux [] cs
      else String.mk acc.reverse :: pySplitWsAux [] cs
    else pySplitWsAux (c :: acc) cs

/-- Python `str.split()` (no argument). -/
def pySplitWs (s : String) : List String := pySplitWsAux [] s.data

/-- `DNSUpdater.read_last_public_ip_address`: an absent file yields the
sentinel `"not set."`; otherwise the last whitespace token of the last line.
Only `FileNotFoundError` is caught: an empty file leaves `ip_address`
unassigned (`UnboundLocalError`), and a last line without tokens makes
`split()[-1]` raise `IndexError`. -/
def readLastPublicIPAddress (logFile : Option String) : Except Abort String :=
  match logFile with
  | none => .ok "not set."
  | some content =>
    match (pyLines content).getLast? with
    | none => .error (.crashed "UnboundLocalError")
    | some line =>
      match (pySplitWs line).getLast? with
      | none => .error (.crashed "IndexError")
      | some tok => .ok tok

/-- `DigitalOceanDNSUpdater.read_access_token`: same loop as
`read_last_public_ip_address`, but an absent file calls `error_and_exit`
(exit code 1). -/
def readAccessToken (tokenFile : Option String) : Except Abort String :=
  match tokenFile with
  | none => .error (.exited "Missing personal access token file.")
  | some content =>
    match (pyLines content).getLast? with
    | none => .error (.crashed "UnboundLocalError")
    | some line =>
      match (pySplitWs line).getLast? with
      | none => .error (.crashed "IndexError")
      | some tok => .ok tok

/-- A DNS record as returned by the provider: an opaque numeric identifier,
name, type and current value (`dns_record.data`). -/
structure DNSRecord where
  id : Nat
  name : String
  type : String
  data : String
deriving DecidableEq, Repr

/-- A configured record: `{name, type}` from the configuration file. -/
structure CfgRecord where
  name : String
  type : String
deriving DecidableEq, Repr

/-- A configured domain: its name and record list. -/
structure CfgDomain where
  name : String
  records : List CfgRecord
deriving DecidableEq, Repr

/-- The part of the configuration the orchestrator loop reads. -/
structure Config where
  domains : List CfgDomain
deriving DecidableEq, Repr

/-- Outcome of `open(log_file, mode='a')`: success, `FileNotFoundError`
(containing directory absent — the only exception the script catches), or
`PermissionError` (path not writable — uncaught). -/
inductive AppendAccess
  | ok
  | fileNotFound
  | permissionError
deriving DecidableEq, Repr

/-- The external world of one run: the `dig` subprocess result, the two
input files (`none` = absent), the DigitalOcean API (list records, save a
record's new data by record id), the history log's append accessibility and
the current timestamp. -/
structure Env where
  digReturncode : Nat
  digStdout : String
  logFile : Option String
  tokenFile : Option String
  getRecords : String → Except String (List DNSRecord)
  save : Nat → String → Except String Unit
  logAccess : AppendAccess
  timestamp : String

/-- Observable effects of a run: provider calls (`listRecords`,
`updateRecord`), warnings, and history-log appends. -/
inductive Event
  | listRecords (domain : String)
  | updateRecord (domain : String) (recordId : Nat) (data : String)
  | warnMissing (domain recName recType : String)
  | warnLogWrite
  | historyAppend (line : String)
deriving DecidableEq, Repr

/-- The list-comprehension filter of `update_domain_records`:
`dns_record.name == cfg_record['name'] and dns_record.type == cfg_record['type']`. -/
def recordMatches (c : CfgRecord) (r : DNSRecord) : Bool :=
  r.name = c.name && r.type = c.type

/-- The `for cfg_record in cfg_domain['records']` loop of
`update_domain_records`: for each configured record, filter the provider's
records; update the first match (an error from `save` is uncaught and stops
everything), or warn when there is no match. Returns the events emitted and
the uncaught provider error, if any. -/
def processCfgRecords (env : Env) (domainName : String) (dnsRecords : List DNSRecord)
    (ip : String) : List CfgRecord → List Event × Option String
  | [] => ([], none)
  | c :: cs =>
    match dnsRecords.filter (recordMatches c) with
    | [] =>
      let rest := processCfgRecords env domainName dnsRecords ip cs
      (Event.warnMissing domainName c.name c.type :: rest.1, rest.2)
    | r :: _ =>
      match env.save r.id ip with
      | .error e => ([Event.updateRecord domainName r.id ip], some e)
      | .ok _ =>
        let rest := processCfgRecords env domainName dnsRecords ip cs
        (Event.updateRecord domainName r.id ip :: rest.1, rest.2)

/-- `DigitalOceanDNSUpdater.update_domain_records`: fetch the domain's
records (an error is uncaught), then process the configured records. -/
def updateDomainRecords (env : Env) (ip : String) (d : CfgDomain) :
    List Event × Option String :=
  match env.getRecords d.name with
  | .error e => ([Event.listRecords d.name], some e)
  | .ok recs =>
    let rest := processCfgRecords env d.name recs ip d.records
    (Event.listRecords d.name :: rest.1, rest.2)

/-- The `for cfg_domain in self.configuration['domains']` loop of
`Main.__init__`: domains in configured order; an uncaught provider error
stops the loop (there is no try/except around it). -/
def processDomains (env : Env) (ip : String) : List CfgDomain → List Event × Option String
  | [] => ([], none)
  | d :: ds =>
    let r := updateDomainRecords env ip d
    match r.2 with
    | some e => (r.1, some e)
    | none =>
      let rest := processDomains env ip ds
      (r.1 ++ rest.1, rest.2)

/-- `DNSUpdater.write_last_public_ip_address`: append
`f'{timestamp} {address}\n'` to the log. Only `FileNotFoundError` is caught
(warn and continue); a `PermissionError` propagates. Returns the new log
content, the events emitted, and the uncaught error, if any. -/
def writeLastPublicIPAddress (access : AppendAccess) (logFile : Option String)
    (ts ip : String) : Option String × List Event × Option String :=
  match access with
  | .ok =>
    let line := ts ++ " " ++ ip ++ "\n"
    (some ((logFile.getD "") ++ line), [Event.historyAppend line], none)
  | .fileNotFound => (logFile, [Event.warnLogWrite], none)
  | .permissionError => (logFile, [], some "PermissionError")

/-- How a whole run ends: exit code 0, `sys.exit(1)`, or an uncaught
exception (which also makes the process exit non-zero). -/
inductive RunOutcome
  | success
  | exited (msg : String)
  | crashed (msg : String)
deriving DecidableEq, Repr

/-- The observable result of one run: the events emitted, the final history
log content, and how the process ended. -/
structure RunResult where
  events : List Event
  log : Option String
  outcome : RunOutcome
deriving Repr

def abortOutcome : Abort → RunOutcome
  | .exited m => .exited m
  | .crashed m => .crashed m

/-- `Main.__init__` after the configuration is loaded. The updater's
constructor resolves the public address, reads the history log, then reads
the access token — all before the comparison. If the new address differs
from the last one, every configured domain is processed and then the log is
appended; otherwise nothing happens. -/
def run (env : Env) (cfg : Config) : RunResult :=
  match getPublicIPAddress env.digReturncode env.digStdout with
  | .error a => { events := [], log := env.logFile, outcome := abortOutcome a }
  | .ok ip =>
    match readLastPublicIPAddress env.logFile with
    | .error a => { events := [], log := env.logFile, outcome := abortOutcome a }
    | .ok last =>
      match readAccessToken env.tokenFile with
      | .error a => { events := [], log := env.logFile, outcome := abortOutcome a }
      | .ok _tok =>
        if ip ≠ last then
          match processDomains env ip cfg.domains with
          | (evs, some e) => { events := evs, log := env.logFile, outcome := .crashed e }
          | (evs, none) =>
            match writeLastPublicIPAddress env.logAccess env.logFile env.timestamp ip with
            | (newLog, wevs, some e) =>
              { events := evs ++ wevs, log := newLog, outcome := .crashed e }
            | (newLog, wevs, none) =>
              { events := evs ++ wevs, log := newLog, outcome := .success }
        else { events := [], log := env.logFile, outcome := .success }

/-- Recognizer for history-append events. -/
def isHistoryAppend : Event → Bool
  | .historyAppend _ => true
  | _ => false

/-- Recognizer for remote update calls. -/
def isUpdateCall : Event → Bool
  | .updateRecord _ _ _ => true
  | _ => false

/-- Recognizer for missing-record (NotFound) warnings. -/
def isMissingWarn : Event → Bool
  | .warnMissing _ _ _ => true
  | _ => false

/-- Spec-side octet: a nonempty all-digit string whose value is at most 255.
Used to compare the code's validation against the spec's wording. -/
def isOctetStr (o : String) : Prop :=
  o.data ≠ [] ∧ (∀ c ∈ o.data, c.isDigit = true) ∧ pyInt o ≤ 255

/-- Spec-side IPv4 well-formedness, following the spec's words: four
dot-separated decimal octets, each in [0,255]. -/
def specWellFormedIPv4 (s : String) : Prop :=
  ∃ a b c d, isOctetStr a ∧ isOctetStr b ∧ isOctetStr c ∧ isOctetStr d ∧
    s = a ++ "." ++ b ++ "." ++ c ++ "." ++ d

/-- Spec-side reconciliation, following the spec's words: for each
configured record in order, find the first provider record matching on name
and type; a match produces one update call, no match produces a NotFound
warning. -/
def specReconcile (dnsRecords : List DNSRecord) (domainName ip : String) :
    List CfgRecord → List Event
  | [] => []
  | c :: cs =>
    match dnsRecords.find? (recordMatches c) with
    | some r => Event.updateRecord domainName r.id ip :: specReconcile dnsRecords domainName ip cs
    | none => Event.warnMissing domainName c.name c.type :: specReconcile dnsRecords domainName ip cs

/-- Spec-side credential parse, following the spec's words: the last
whitespace-delimited token of the file's last non-empty line. -/
def lastNonEmptyLineToken (content : String) : Option String :=
  match ((pyLines content).filter fun l => !(pySplitWs l).isEmpty).getLast? with
  | some l => (pySplitWs l).getLast?
  | none => none

/-- Dot-joined character content of a piece list: the inverse image of
`pySplitDot`. -/
def joinDot : List String → List Char
  | [] => []
  | [p] => p.data
  | p :: q :: ps => p.data ++ '.' :: joinDot (q :: ps)

/-- A baseline concrete environment for the example runs: address changed
from `1.2.3.4` to `5.6.7.8`, one provider record `home`/`A`, all calls
succeed. -/
def exEnv : Env where
  digReturncode := 0
  digStdout := "5.6.7.8\n"
  logFile := some "2020-01-01T00:00:00-05:00 1.2.3.4\n"
  tokenFile := some "token abc123\n"
  getRecords := fun _ => .ok [{ id := 7, name := "home", type := "A", data := "1.2.3.4" }]
  save := fun _ _ => .ok ()
  logAccess := .ok
  timestamp := "2020-06-01T00:00:00-05:00"

def exCfg : Config where
  domains := [{ name := "example.com", records := [{ name := "home", type := "A" }] }]

/-- Environment with two configured domains where saving the first domain's
record fails with a provider error. -/
def c2Env : Env :=
  { exEnv with
    getRecords := fun d =>
      if d = "one.com" then .ok [{ id := 1, name := "home", type := "A", data := "1.2.3.4" }]
      else .ok [{ id := 2, name := "home", type := "A", data := "1.2.3.4" }]
    save := fun i _ => if i = 1 then .error "boom" else .ok () }

def c2Cfg : Config where
  domains := [{ name := "one.com", records := [{ name := "home", type := "A" }] },
              { name := "two.com", records := [{ name := "home", type := "A" }] }]

/-- Environment for the spec's reconciliation example: desired records
`[(a, A), (b, A)]`, provider records containing only a matching `a`. -/
def c5Env : Env :=
  { exEnv with
    getRecords := fun _ => .ok [{ id := 1, name := "a", type := "A", data := "9.9.9.9" }] }

def c5Domain : CfgDomain where
  name := "example.com"
  records := [{ name := "a", type := "A" }, { name := "b", type := "A" }]

/-- Environment where the provider record's value already equals the new
address (provider drift): the update call is still issued. -/
def c6Env : Env :=
  { exEnv with
    getRecords := fun _ => .ok [{ id := 7, name := "home", type := "A", data := "5.6.7.8" }] }

-- Sanity checks of the Python-primitive models on concrete inputs.
example : pyRstrip "1.2.3.4\n" = "1.2.3.4" := by decide
example : pySplitDot "" = [""] := by decide
example : pySplitDot "1.2.3.4" = ["1", "2", "3", "4"] := by decide
example : validIPv4 "1.2.3.4" = true := by decide
example : validIPv4 "not set." = false := by decide
example : validIPv4 "1.2.3.256" = false := by decide
example : pyLines "" = [] := by decide
example : pyLines "a\n\n" = ["a\n", "\n"] := by decide
example : pyLines "a\nb" = ["a\n", "b"] := by decide
example : pySplitWs " a  b \n" = ["a", "b"] := by decide
example : readLastPublicIPAddress none = .ok "not set." := rfl
example : readLastPublicIPAddress (some "x 1.2.3.4\n") = .ok "1.2.3.4" := rfl
example : readLastPublicIPAddress (some "") = .error (.crashed "UnboundLocalError") := rfl
example : readLastPublicIPAddress (some "a\n\n") = .error (.crashed "IndexError") := rfl

-- Sanity checks of the orchestrator model on concrete environments.
example :
    run exEnv exCfg =
      { events := [Event.listRecords "example.com",
                   Event.updateRecord "example.com" 7 "5.6.7.8",
                   Event.historyAppend "2020-06-01T00:00:00-05:00 5.6.7.8\n"],
        log := some ("2020-01-01T00:00:00-05:00 1.2.3.4\n" ++
                     "2020-06-01T00:00:00-05:00 5.6.7.8\n"),
        outcome := .success } := rfl

example :
    run { exEnv with digStdout := "1.2.3.4\n" } exCfg =
      { events := [], log := exEnv.logFile, outcome := .success } := rfl

example :
    run { exEnv with tokenFile := none } exCfg =
      { events := [], log := exEnv.logFile,
        outcome := .exited "Missing personal access token file." } := rfl

/-! ### String and character infrastructure -/

theorem data_mk (l : List Char) : (String.mk l).data = l := rfl

theorem mk_data (s : String) : String.mk s.data = s := rfl

theorem data_append (s t : String) : (s ++ t).data = s.data ++ t.data := rfl

theorem string_ext {s t : String} (h : s.data = t.data) : s = t := by
  cases s with
  | mk l₁ =>
    cases t with
    | mk l₂ => exact congrArg String.mk h

theorem isDigit_ne_dot {c : Char} (h : c.isDigit = true) : c ≠ '.' := by
  intro h'
  rw [h'] at h
  exact absurd h (by decide)

theorem not_whitespace_of_isDigit {c : Char} (hd : c.isDigit = true) :
    ¬ c.isWhitespace = true := by
  intro hw
  simp only [Char.isWhitespace, Bool.or_eq_true, decide_eq_true_eq] at hw
  rcases hw with ((h | h) | h) | h <;> (rw [h] at hd; exact absurd hd (by decide))

theorem ne_newline_of_isDigit {c : Char} (hd : c.isDigit = true) : c ≠ '\n' := by
  intro h
  rw [h] at hd
  exact absurd hd (by decide)

/-! ### Lemmas about `pySplitDot` -/

theorem pySplitDotAux_ne_nil (cs acc : List Char) : pySplitDotAux acc cs ≠ [] := by
  induction cs generalizing acc with
  | nil => simp [pySplitDotAux]
  | cons c cs ih =>
    simp only [pySplitDotAux]
    split
    · simp
    · exact ih _

theorem joinDot_cons (p : String) (ps : List String) (h : ps ≠ []) :
    joinDot (p :: ps) = p.data ++ '.' :: joinDot ps := by
  cases ps with
  | nil => exact absurd rfl h
  | cons q qs => rfl

theorem joinDot_pySplitDotAux (cs : List Char) :
    ∀ acc, joinDot (pySplitDotAux acc cs) = acc.reverse ++ cs := by
  induction cs with
  | nil => intro acc; simp [pySplitDotAux, joinDot]
  | cons c cs ih =>
    intro acc
    simp only [pySplitDotAux]
    split
    · rename_i hc
      subst hc
      rw [joinDot_cons _ _ (pySplitDotAux_ne_nil cs []), ih []]
      simp
    · rw [ih (c :: acc)]
      simp

theorem pySplitDotAux_no_dot (xs : List Char) :
    ∀ acc, (∀ c ∈ xs, c ≠ '.') →
      pySplitDotAux acc xs = [String.mk (acc.reverse ++ xs)] := by
  induction xs with
  | nil => intro acc _; simp [pySplitDotAux]
  | cons c cs ih =>
    intro acc h
    have hc : c ≠ '.' := h c (by simp)
    simp only [pySplitDotAux, if_neg hc]
    rw [ih (c :: acc) (fun x hx => h x (by simp [hx]))]
    simp

theorem pySplitDotAux_append_dot (xs : List Char) :
    ∀ acc ys, (∀ c ∈ xs, c ≠ '.') →
      pySplitDotAux acc (xs ++ '.' :: ys) =
        String.mk (acc.reverse ++ xs) :: pySplitDotAux [] ys := by
  induction xs with
  | nil => intro acc ys _; simp [pySplitDotAux]
  | cons c cs ih =>
    intro acc ys h
    have hc : c ≠ '.' := h c (by simp)
    show pySplitDotAux acc (c :: (cs ++ '.' :: ys)) = _
    simp only [pySplitDotAux, if_neg hc]
    rw [ih (c :: acc) ys (fun x hx => h x (by simp [hx]))]
    simp

theorem pySplitDotAux_all_digits (cs : List Char) :
    ∀ acc, ((pySplitDotAux acc cs).all fun o => o.data.all Char.isDigit) = true →
      (∀ c ∈ acc, c.isDigit = true) ∧ (∀ c ∈ cs, c.isDigit = true ∨ c = '.') := by
  induction cs with
  | nil =>
    intro acc h
    simp only [pySplitDotAux, List.all_cons, List.all_nil, Bool.and_true, data_mk,
      List.all_eq_true] at h
    exact ⟨fun c hc => h c (by simpa using hc), by simp⟩
  | cons c cs ih =>
    intro acc h
    simp only [pySplitDotAux] at h
    by_cases hc : c = '.'
    · rw [if_pos hc] at h
      simp only [List.all_cons, Bool.and_eq_true, data_mk, List.all_eq_true] at h
      obtain ⟨h1, h2⟩ := h
      have := ih [] (by simpa using h2)
      refine ⟨fun x hx => h1 x (by simpa using hx), ?_⟩
      intro x hx
      rcases List.mem_cons.mp hx with hx | hx
      · subst hx; exact Or.inr hc
      · exact this.2 x hx
    · rw [if_neg hc] at h
      have := ih (c :: acc) h
      refine ⟨fun x hx => this.1 x (by simp [hx]), ?_⟩
      intro x hx
      rcases List.mem_cons.mp hx with hx | hx
      · subst hx; exact Or.inl (this.1 _ (by simp))
      · exact this.2 x hx

/-! ### The IPv4 validation against the spec's characterization -/

theorem exists_four_of_length {α : Type} {l : List α} (h : l.length = 4) :
    ∃ a b c d, l = [a, b, c, d] := by
  rcases l with _ | ⟨a, _ | ⟨b, _ | ⟨c, _ | ⟨d, _ | ⟨e, rest⟩⟩⟩⟩⟩ <;> simp_all

theorem dotted_data (a b c d : String) :
    (a ++ "." ++ b ++ "." ++ c ++ "." ++ d).data =
      a.data ++ '.' :: (b.data ++ '.' :: (c.data ++ '.' :: d.data)) := by
  have hdot : ("." : String).data = ['.'] := rfl
  simp [data_append, hdot]

theorem all_digit_of_isValidOctet {o : String} (h : isValidOctet o = true) :
    ∀ c ∈ o.data, c.isDigit = true := by
  unfold isValidOctet pyIsDigitStr at h
  simp only [Bool.and_eq_true, List.all_eq_true] at h
  exact h.1.2

theorem isOctetStr_of_isValidOctet {o : String} (h : isValidOctet o = true) :
    isOctetStr o := by
  unfold isValidOctet pyIsDigitStr at h
  simp only [Bool.and_eq_true, List.all_eq_true, Bool.not_eq_true',
    List.isEmpty_eq_false, decide_eq_true_eq] at h
  exact ⟨h.1.1, h.1.2, h.2⟩

theorem isValidOctet_of_isOctetStr {o : String} (h : isOctetStr o) :
    isValidOctet o = true := by
  obtain ⟨h1, h2, h3⟩ := h
  unfold isValidOctet pyIsDigitStr
  simp only [Bool.and_eq_true, List.all_eq_true, Bool.not_eq_true',
    List.isEmpty_eq_false, decide_eq_true_eq]
  exact ⟨⟨h1, h2⟩, h3⟩

theorem validIPv4_iff_spec (s : String) :
    validIPv4 s = true ↔ specWellFormedIPv4 s := by
  constructor
  · intro h
    unfold validIPv4 at h
    simp only [Bool.and_eq_true, decide_eq_true_eq, List.all_eq_true] at h
    obtain ⟨hlen, hall⟩ := h
    obtain ⟨a, b, c, d, hsp⟩ := exists_four_of_length hlen
    have hjoin := joinDot_pySplitDotAux s.data []
    rw [show pySplitDotAux [] s.data = pySplitDot s from rfl, hsp] at hjoin
    simp only [joinDot, List.reverse_nil, List.nil_append] at hjoin
    refine ⟨a, b, c, d,
      isOctetStr_of_isValidOctet (hall a (by simp [hsp])),
      isOctetStr_of_isValidOctet (hall b (by simp [hsp])),
      isOctetStr_of_isValidOctet (hall c (by simp [hsp])),
      isOctetStr_of_isValidOctet (hall d (by simp [hsp])), ?_⟩
    refine string_ext ?_
    rw [dotted_data, hjoin]
  · rintro ⟨a, b, c, d, ha, hb, hc, hd, rfl⟩
    have hna : ∀ x ∈ a.data, x ≠ '.' := fun x hx => isDigit_ne_dot (ha.2.1 x hx)
    have hnb : ∀ x ∈ b.data, x ≠ '.' := fun x hx => isDigit_ne_dot (hb.2.1 x hx)
    have hnc : ∀ x ∈ c.data, x ≠ '.' := fun x hx => isDigit_ne_dot (hc.2.1 x hx)
    have hnd : ∀ x ∈ d.data, x ≠ '.' := fun x hx => isDigit_ne_dot (hd.2.1 x hx)
    have hsp : pySplitDot (a ++ "." ++ b ++ "." ++ c ++ "." ++ d) = [a, b, c, d] := by
      show pySplitDotAux [] (a ++ "." ++ b ++ "." ++ c ++ "." ++ d).data = _
      rw [dotted_data,
        pySplitDotAux_append_dot a.data [] _ hna,
        pySplitDotAux_append_dot b.data [] _ hnb,
        pySplitDotAux_append_dot c.data [] _ hnc,
        pySplitDotAux_no_dot d.data [] hnd]
      simp [mk_data]
    unfold validIPv4
    rw [hsp]
    simp only [List.length_cons, List.length_nil, List.all_cons, List.all_nil,
      Bool.and_eq_true, decide_eq_true_eq]
    refine ⟨by simp, ?_⟩
    simp [isValidOctet_of_isOctetStr ha, isValidOctet_of_isOctetStr hb,
      isValidOctet_of_isOctetStr hc, isValidOctet_of_isOctetStr hd]

theorem validIPv4_chars {s : String} (h : validIPv4 s = true) :
    s.data ≠ [] ∧ ∀ c ∈ s.data, c.isDigit = true ∨ c = '.' := by
  unfold validIPv4 at h
  simp only [Bool.and_eq_true, decide_eq_true_eq, List.all_eq_true] at h
  obtain ⟨hlen, hall⟩ := h
  constructor
  · intro hnil
    rw [show pySplitDot s = pySplitDotAux [] s.data from rfl, hnil] at hlen
    simp [pySplitDotAux] at hlen
  · have hdig : ((pySplitDotAux [] s.data).all fun o => o.data.all Char.isDigit) = true := by
      simp only [List.all_eq_true]
      intro o ho
      exact all_digit_of_isValidOctet (hall o ho)
    exact (pySplitDotAux_all_digits s.data [] hdig).2

theorem validIPv4_no_whitespace {s : String} (h : validIPv4 s = true) :
    ∀ c ∈ s.data, ¬ c.isWhitespace = true := by
  intro c hc hw
  rcases (validIPv4_chars h).2 c hc with hd | hd
  · exact not_whitespace_of_isDigit hd hw
  · rw [hd] at hw
    exact absurd hw (by decide)

theorem validIPv4_ne_sentinel {s : String} (h : validIPv4 s = true) :
    s ≠ "not set." := by
  intro h'
  rw [h'] at h
  exact absurd h (by decide)

theorem getPublicIPAddress_ok {returncode : Nat} {stdout ip : String}
    (h : getPublicIPAddress returncode stdout = .ok ip) :
    ip = pyRstrip stdout ∧ validIPv4 ip = true := by
  unfold getPublicIPAddress at h
  split at h
  · exact absurd h (by simp)
  · split at h
    · rename_i hv
      cases h
      exact ⟨rfl, hv⟩
    · exact absurd h (by simp)

/-! ### Lemmas about `pyLines` and `pySplitWs` -/

theorem pyLinesAux_split (xs : List Char) :
    ∀ acc ys, pyLinesAux acc (xs ++ '\n' :: ys) =
      pyLinesAux acc (xs ++ ['\n']) ++ pyLinesAux [] ys := by
  induction xs with
  | nil => intro acc ys; simp [pyLinesAux]
  | cons c cs ih =>
    intro acc ys
    show pyLinesAux acc (c :: (cs ++ '\n' :: ys)) =
      pyLinesAux acc (c :: (cs ++ ['\n'])) ++ pyLinesAux [] ys
    by_cases hc : c = '\n'
    · subst hc
      simp only [pyLinesAux, if_pos rfl]
      rw [ih []]
      simp
    · simp only [pyLinesAux, if_neg hc]
      exact ih (c :: acc) ys

theorem pyLinesAux_single (xs : List Char) :
    ∀ acc, (∀ c ∈ xs, c ≠ '\n') →
      pyLinesAux acc (xs ++ ['\n']) = [String.mk (acc.reverse ++ xs ++ ['\n'])] := by
  induction xs with
  | nil => intro acc _; simp [pyLinesAux]
  | cons c cs ih =>
    intro acc h
    have hc : c ≠ '\n' := h c (by simp)
    show pyLinesAux acc (c :: (cs ++ ['\n'])) = _
    simp only [pyLinesAux, if_neg hc]
    rw [ih (c :: acc) (fun x hx => h x (by simp [hx]))]
    simp

theorem pySplitWsAux_split (xs : List Char) :
    ∀ acc c ys, c.isWhitespace = true →
      pySplitWsAux acc (xs ++ c :: ys) =
        pySplitWsAux acc (xs ++ [c]) ++ pySplitWsAux [] ys := by
  induction xs with
  | nil =>
    intro acc c ys hc
    simp only [List.nil_append, pySplitWsAux, if_pos hc]
    by_cases ha : acc.isEmpty
    · rw [if_pos ha, if_pos ha]
      simp [pySplitWsAux]
    · rw [if_neg ha, if_neg ha]
      simp [pySplitWsAux]
  | cons x xs ih =>
    intro acc c ys hc
    show pySplitWsAux acc (x :: (xs ++ c :: ys)) =
      pySplitWsAux acc (x :: (xs ++ [c])) ++ pySplitWsAux [] ys
    by_cases hx : x.isWhitespace
    · simp only [pySplitWsAux, if_pos hx]
      by_cases ha : acc.isEmpty
      · rw [if_pos ha, if_pos ha, ih [] c ys hc]
      · rw [if_neg ha, if_neg ha, ih [] c ys hc]
        simp
    · simp only [pySplitWsAux, if_neg hx]
      exact ih (x :: acc) c ys hc

theorem pySplitWsAux_token (ws : List Char) :
    ∀ acc c, c.isWhitespace = true → (∀ x ∈ ws, ¬ x.isWhitespace = true) →
      pySplitWsAux acc (ws ++ [c]) =
        if acc.isEmpty && ws.isEmpty then [] else [String.mk (acc.reverse ++ ws)] := by
  induction ws with
  | nil =>
    intro acc c hc _
    simp only [List.nil_append, pySplitWsAux, if_pos hc]
    by_cases ha : acc.isEmpty
    · rw [if_pos ha]
      simp [pySplitWsAux, ha]
    · rw [if_neg ha]
      simp [pySplitWsAux, ha]
  | cons w ws ih =>
    intro acc c hc h
    have hw : ¬ w.isWhitespace = true := h w (by simp)
    show pySplitWsAux acc (w :: (ws ++ [c])) = _
    simp only [pySplitWsAux, if_neg hw]
    rw [ih (w :: acc) c hc (fun x hx => h x (by simp [hx]))]
    simp

theorem getLast?_snoc {α : Type} (l : List α) (a : α) : (l ++ [a]).getLast? = some a := by
  simp [List.getLast?_concat]

/-- Appending one newline-terminated, newline-free chunk to an empty or
newline-terminated content adds exactly that one line. -/
theorem pyLines_append_line (old w : List Char)
    (hold : old = [] ∨ ∃ zs, old = zs ++ ['\n'])
    (hw : ∀ c ∈ w, c ≠ '\n') :
    pyLinesAux [] (old ++ (w ++ ['\n'])) =
      pyLinesAux [] old ++ [String.mk (w ++ ['\n'])] := by
  rcases hold with rfl | ⟨zs, rfl⟩
  · simp only [List.nil_append]
    rw [pyLinesAux_single w [] hw]
    simp [pyLinesAux]
  · have hassoc : (zs ++ ['\n']) ++ (w ++ ['\n']) = zs ++ '\n' :: (w ++ ['\n']) := by simp
    rw [hassoc, pyLinesAux_split zs [] (w ++ ['\n']), pyLinesAux_single w [] hw]
    simp

/-- The last whitespace token of `ts ++ " " ++ ip ++ "\n"` is `ip`, for any
`ip` that is nonempty and whitespace-free. -/
theorem pySplitWs_last_token (ts ip : String)
    (hip1 : ip.data ≠ []) (hip2 : ∀ c ∈ ip.data, ¬ c.isWhitespace = true) :
    (pySplitWs (ts ++ " " ++ ip ++ "\n")).getLast? = some ip := by
  have hdata : (ts ++ " " ++ ip ++ "\n").data = ts.data ++ ' ' :: (ip.data ++ ['\n']) := by
    have hsp : (" " : String).data = [' '] := rfl
    have hnl : ("\n" : String).data = ['\n'] := rfl
    simp [data_append, hsp, hnl]
  show (pySplitWsAux [] (ts ++ " " ++ ip ++ "\n").data).getLast? = some ip
  rw [hdata, pySplitWsAux_split ts.data [] ' ' (ip.data ++ ['\n']) (by decide),
    pySplitWsAux_token ip.data [] '\n' (by decide) hip2]
  have hne : (ip.data.isEmpty = false) := by
    cases hd : ip.data with
    | nil => exact absurd hd hip1
    | cons x xs => rfl
  rw [if_neg (by simp [hne])]
  simp only [List.reverse_nil, List.nil_append, mk_data]
  exact getLast?_snoc _ ip

theorem readLast_eval (content line tok : String)
    (h1 : (pyLines content).getLast? = some line)
    (h2 : (pySplitWs line).getLast? = some tok) :
    readLastPublicIPAddress (some content) = .ok tok := by
  simp [readLastPublicIPAddress, h1, h2]

theorem readToken_eval (content line tok : String)
    (h1 : (pyLines content).getLast? = some line)
    (h2 : (pySplitWs line).getLast? = some tok) :
    readAccessToken (some content) = .ok tok := by
  simp [readAccessToken, h1, h2]

/-- Appending one `<timestamp> <address>\n` line to an empty or
newline-terminated log adds exactly one line, and `readLast` then recovers
the address. -/
theorem append_line_roundtrip (old ts ip : String)
    (hts : ∀ c ∈ ts.data, c ≠ '\n')
    (hip : validIPv4 ip = true)
    (hold : old.data = [] ∨ ∃ zs, old.data = zs ++ ['\n']) :
    pyLines (old ++ (ts ++ " " ++ ip ++ "\n")) = pyLines old ++ [ts ++ " " ++ ip ++ "\n"] ∧
    readLastPublicIPAddress (some (old ++ (ts ++ " " ++ ip ++ "\n"))) = .ok ip := by
  have hipchars := validIPv4_chars hip
  have hipws := validIPv4_no_whitespace hip
  have hdata : (ts ++ " " ++ ip ++ "\n").data = (ts.data ++ ' ' :: ip.data) ++ ['\n'] := by
    have hsp : (" " : String).data = [' '] := rfl
    have hnl : ("\n" : String).data = ['\n'] := rfl
    simp [data_append, hsp, hnl]
  have hw : ∀ c ∈ ts.data ++ ' ' :: ip.data, c ≠ '\n' := by
    intro c hc
    rcases List.mem_append.mp hc with hc | hc
    · exact hts c hc
    · rcases List.mem_cons.mp hc with hc | hc
      · subst hc; decide
      · rcases hipchars.2 c hc with hd | hd
        · exact ne_newline_of_isDigit hd
        · subst hd; decide
  have hlines : pyLines (old ++ (ts ++ " " ++ ip ++ "\n")) =
      pyLines old ++ [ts ++ " " ++ ip ++ "\n"] := by
    show pyLinesAux [] (old ++ (ts ++ " " ++ ip ++ "\n")).data = _
    rw [data_append, hdata, pyLines_append_line old.data _ hold hw, ← hdata, mk_data]
    rfl
  refine ⟨hlines, ?_⟩
  exact readLast_eval _ _ _ (by rw [hlines]; exact getLast?_snoc _ _)
    (pySplitWs_last_token ts ip hipchars.1 hipws)

/-! ### Lemmas about the run and the reconciliation loop -/

theorem run_unchanged (env : Env) (cfg : Config) (ip tok : String)
    (h1 : getPublicIPAddress env.digReturncode env.digStdout = .ok ip)
    (h2 : readLastPublicIPAddress env.logFile = .ok ip)
    (h3 : readAccessToken env.tokenFile = .ok tok) :
    run env cfg = { events := [], log := env.logFile, outcome := .success } := by
  simp [run, h1, h2, h3]

theorem run_missing_token (env : Env) (cfg : Config) (ip last : String)
    (h1 : getPublicIPAddress env.digReturncode env.digStdout = .ok ip)
    (h2 : readLastPublicIPAddress env.logFile = .ok last)
    (hnone : env.tokenFile = none) :
    run env cfg =
      { events := [], log := env.logFile,
        outcome := .exited "Missing personal access token file." } := by
  simp [run, h1, h2, hnone, readAccessToken, abortOutcome]

theorem run_changed_ok (env : Env) (cfg : Config) (ip last tok : String)
    (evs : List Event)
    (h1 : getPublicIPAddress env.digReturncode env.digStdout = .ok ip)
    (h2 : readLastPublicIPAddress env.logFile = .ok last)
    (h3 : readAccessToken env.tokenFile = .ok tok)
    (hne : last ≠ ip)
    (hpd : processDomains env ip cfg.domains = (evs, none))
    (hacc : env.logAccess = .ok) :
    run env cfg =
      { events := evs ++ [Event.historyAppend (env.timestamp ++ " " ++ ip ++ "\n")],
        log := some ((env.logFile.getD "") ++ (env.timestamp ++ " " ++ ip ++ "\n")),
        outcome := .success } := by
  simp [run, h1, h2, h3, Ne.symm hne, hpd, hacc, writeLastPublicIPAddress]

theorem run_changed_err (env : Env) (cfg : Config) (ip last tok : String)
    (evs : List Event) (e : String)
    (h1 : getPublicIPAddress env.digReturncode env.digStdout = .ok ip)
    (h2 : readLastPublicIPAddress env.logFile = .ok last)
    (h3 : readAccessToken env.tokenFile = .ok tok)
    (hne : last ≠ ip)
    (hpd : processDomains env ip cfg.domains = (evs, some e)) :
    run env cfg = { events := evs, log := env.logFile, outcome := .crashed e } := by
  simp [run, h1, h2, h3, Ne.symm hne, hpd]

theorem run_changed_warnlog (env : Env) (cfg : Config) (ip last tok : String)
    (evs : List Event)
    (h1 : getPublicIPAddress env.digReturncode env.digStdout = .ok ip)
    (h2 : readLastPublicIPAddress env.logFile = .ok last)
    (h3 : readAccessToken env.tokenFile = .ok tok)
    (hne : last ≠ ip)
    (hpd : processDomains env ip cfg.domains = (evs, none))
    (hacc : env.logAccess = .fileNotFound) :
    run env cfg =
      { events := evs ++ [Event.warnLogWrite], log := env.logFile,
        outcome := .success } := by
  simp [run, h1, h2, h3, Ne.symm hne, hpd, hacc, writeLastPublicIPAddress]

theorem run_changed_permission (env : Env) (cfg : Config) (ip last tok : String)
    (evs : List Event)
    (h1 : getPublicIPAddress env.digReturncode env.digStdout = .ok ip)
    (h2 : readLastPublicIPAddress env.logFile = .ok last)
    (h3 : readAccessToken env.tokenFile = .ok tok)
    (hne : last ≠ ip)
    (hpd : processDomains env ip cfg.domains = (evs, none))
    (hacc : env.logAccess = .permissionError) :
    run env cfg =
      { events := evs, log := env.logFile,
        outcome := .crashed "PermissionError" } := by
  simp [run, h1, h2, h3, Ne.symm hne, hpd, hacc, writeLastPublicIPAddress]

theorem processCfgRecords_no_append (env : Env) (dn : String) (recs : List DNSRecord)
    (ip : String) (cfgs : List CfgRecord) :
    ((processCfgRecords env dn recs ip cfgs).1.countP isHistoryAppend) = 0 := by
  induction cfgs with
  | nil => rfl
  | cons c cs ih =>
    simp only [processCfgRecords]
    cases hf : recs.filter (recordMatches c) with
    | nil => simp [List.countP_cons, isHistoryAppend, ih]
    | cons r rest =>
      cases hs : env.save r.id ip with
      | error e => simp [hs, List.countP_cons, isHistoryAppend]
      | ok u => simp [hs, List.countP_cons, isHistoryAppend, ih]

theorem updateDomainRecords_no_append (env : Env) (ip : String) (d : CfgDomain) :
    ((updateDomainRecords env ip d).1.countP isHistoryAppend) = 0 := by
  unfold updateDomainRecords
  cases hg : env.getRecords d.name with
  | error e => simp [List.countP_cons, isHistoryAppend]
  | ok recs =>
    simp [List.countP_cons, isHistoryAppend, processCfgRecords_no_append]

theorem processDomains_no_append (env : Env) (ip : String) (ds : List CfgDomain) :
    ((processDomains env ip ds).1.countP isHistoryAppend) = 0 := by
  induction ds with
  | nil => rfl
  | cons d ds ih =>
    simp only [processDomains]
    cases hr : (updateDomainRecords env ip d).2 with
    | some e =>
      have := updateDomainRecords_no_append env ip d
      simpa using this
    | none =>
      have h1 := updateDomainRecords_no_append env ip d
      simp [List.countP_append, h1, ih]

theorem find?_eq_head?_filter {α : Type} (p : α → Bool) (l : List α) :
    l.find? p = (l.filter p).head? := by
  induction l with
  | nil => rfl
  | cons a l ih =>
    cases h : p a
    · rw [List.find?_cons_of_neg _ (by simp [h]), List.filter_cons_of_neg (by simp [h]), ih]
    · rw [List.find?_cons_of_pos _ h, List.filter_cons_of_pos h, List.head?_cons]

/-- When every save succeeds, the reconciliation loop produces exactly the
events the spec prescribes: first match (in provider order) updated per
configured record, NotFound warning otherwise. -/
theorem processCfgRecords_refines_spec (env : Env) (dn : String) (recs : List DNSRecord)
    (ip : String) (hsave : ∀ i d, env.save i d = .ok ()) :
    ∀ cfgs, processCfgRecords env dn recs ip cfgs = (specReconcile recs dn ip cfgs, none) := by
  intro cfgs
  induction cfgs with
  | nil => rfl
  | cons c cs ih =>
    simp only [processCfgRecords, specReconcile, find?_eq_head?_filter]
    cases hf : recs.filter (recordMatches c) with
    | nil => simp [ih]
    | cons r rest => simp [hsave r.id ip, ih]

/-- The reconciliation loop never reads a provider record's current value:
changing every record's `data` field changes nothing. -/
theorem processCfgRecords_ignores_data (env : Env) (dn ip : String)
    (recs : List DNSRecord) (f : DNSRecord → String) :
    ∀ cfgs, processCfgRecords env dn (recs.map fun r => { r with data := f r }) ip cfgs =
      processCfgRecords env dn recs ip cfgs := by
  intro cfgs
  induction cfgs with
  | nil => rfl
  | cons c cs ih =>
    have hcomp : (recordMatches c ∘ fun r => { r with data := f r }) = recordMatches c :=
      funext fun r => rfl
    have hfilter : (recs.map fun r => { r with data := f r }).filter (recordMatches c) =
        (recs.filter (recordMatches c)).map fun r => { r with data := f r } := by
      rw [List.filter_map, hcomp]
    simp only [processCfgRecords, hfilter]
    cases hf : recs.filter (recordMatches c) with
    | nil => simp [ih]
    | cons r rest =>
      simp only [List.map_cons]
      cases hs : env.save r.id ip with
      | error e => simp
      | ok u => simp [ih]

/-! ### The claims -/

/-- Claim C1: the run's behaviour is determined by comparing the resolved
public address to the last history entry under string equality: when they
are equal the run performs zero provider calls and zero history writes and
ends successfully; an absent history log yields the `NotSet` sentinel,
which differs from every validated address; when they differ the run takes
the Changed path, reconciling every configured domain and appending the new
address to history. -/
theorem claim_c1 (env : Env) (cfg : Config) (ip last tok : String)
    (h1 : getPublicIPAddress env.digReturncode env.digStdout = .ok ip)
    (h2 : readLastPublicIPAddress env.logFile = .ok last)
    (h3 : readAccessToken env.tokenFile = .ok tok) :
    (last = ip → run env cfg = { events := [], log := env.logFile, outcome := .success }) ∧
    (env.logFile = none → last ≠ ip) ∧
    (last ≠ ip → ∀ evs, processDomains env ip cfg.domains = (evs, none) →
      env.logAccess = .ok →
      run env cfg =
        { events := evs ++ [Event.historyAppend (env.timestamp ++ " " ++ ip ++ "\n")],
          log := some ((env.logFile.getD "") ++ (env.timestamp ++ " " ++ ip ++ "\n")),
          outcome := .success }) := by
  refine ⟨?_, ?_, ?_⟩
  · intro h
    subst h
    exact run_unchanged env cfg _ tok h1 h2 h3
  · intro hnone heq
    rw [hnone] at h2
    have h2' : (Except.ok "not set." : Except Abort String) = .ok last := h2
    injection h2' with h2'
    have hv : validIPv4 ip = true := (getPublicIPAddress_ok h1).2
    exact validIPv4_ne_sentinel hv (heq ▸ h2'.symm)
  · intro hne evs hpd hacc
    exact run_changed_ok env cfg ip last tok evs h1 h2 h3 hne hpd hacc

/-- Witness for C1: a concrete unchanged run (resolved address equals the
last history line) performs no provider calls and no history writes. -/
theorem claim_c1_witness :
    run { exEnv with digStdout := "1.2.3.4\n" } exCfg =
      { events := [], log := exEnv.logFile, outcome := .success } :=
  (claim_c1 { exEnv with digStdout := "1.2.3.4\n" } exCfg "1.2.3.4" "1.2.3.4" "abc123"
    rfl rfl rfl).1 rfl

/-- Claim C2 counterexample: with two configured domains and a provider
error while saving the first domain's record, the run crashes with the
uncaught error: the second domain is never fetched, no Failed outcome is
recorded, and the history log is not appended. -/
theorem claim_c2_counterexample :
    run c2Env c2Cfg =
      { events := [Event.listRecords "one.com", Event.updateRecord "one.com" 1 "5.6.7.8"],
        log := some "2020-01-01T00:00:00-05:00 1.2.3.4\n",
        outcome := .crashed "boom" } := rfl

/-- Claim C2 (amended): on the Changed path a record with no provider match
warns and processing continues, but a provider error raises an uncaught
exception aborting the run — later domains are not attempted and history is
not appended; only when every provider call succeeds are all domains
processed and the address appended exactly once. -/
theorem claim_c2_amended (env : Env) (cfg : Config) (ip last tok : String)
    (h1 : getPublicIPAddress env.digReturncode env.digStdout = .ok ip)
    (h2 : readLastPublicIPAddress env.logFile = .ok last)
    (h3 : readAccessToken env.tokenFile = .ok tok)
    (hne : last ≠ ip) :
    (∀ evs e, processDomains env ip cfg.domains = (evs, some e) →
      run env cfg = { events := evs, log := env.logFile, outcome := .crashed e } ∧
      evs.countP isHistoryAppend = 0) ∧
    (∀ evs, processDomains env ip cfg.domains = (evs, none) → env.logAccess = .ok →
      (run env cfg).events.countP isHistoryAppend = 1 ∧
      (run env cfg).outcome = .success) := by
  constructor
  · intro evs e hpd
    refine ⟨run_changed_err env cfg ip last tok evs e h1 h2 h3 hne hpd, ?_⟩
    have h0 := processDomains_no_append env ip cfg.domains
    rw [hpd] at h0
    exact h0
  · intro evs hpd hacc
    rw [run_changed_ok env cfg ip last tok evs h1 h2 h3 hne hpd hacc]
    have h0 := processDomains_no_append env ip cfg.domains
    rw [hpd] at h0
    refine ⟨?_, rfl⟩
    simp [List.countP_append, List.countP_cons, isHistoryAppend, h0]

/-- Witness for the amended C2: a concrete all-success changed run appends
to history exactly once and succeeds. -/
theorem claim_c2_amended_witness :
    (run exEnv exCfg).events.countP isHistoryAppend = 1 ∧
    (run exEnv exCfg).outcome = .success := by
  have h := claim_c2_amended exEnv exCfg "5.6.7.8" "1.2.3.4" "abc123" rfl rfl rfl (by decide)
  exact h.2 _ rfl rfl

/-- Claim C3 counterexample: `"1.2.3.4 \n\n"` carries extra trailing
whitespace (beyond a single trailing newline), which the claim says is
rejected — yet the code accepts it, because `rstrip` removes all trailing
whitespace before validation. -/
theorem claim_c3_counterexample :
    getPublicIPAddress 0 "1.2.3.4 \n\n" = .ok "1.2.3.4" := rfl

/-- Claim C3 (amended): validation accepts exactly the strings that, after
stripping all trailing whitespace, are four dot-separated decimal octets
each in [0,255]; any other input (wrong segment count, non-numeric or
out-of-range octet, leading or interior whitespace) yields the
invalid-format error. -/
theorem claim_c3_amended (s : String) :
    (getPublicIPAddress 0 s = .ok (pyRstrip s) ↔ specWellFormedIPv4 (pyRstrip s)) ∧
    (∀ ip, getPublicIPAddress 0 s = .ok ip → ip = pyRstrip s) ∧
    (¬ specWellFormedIPv4 (pyRstrip s) →
      getPublicIPAddress 0 s =
        .error (.exited ("Invalid public IPv4 address: " ++ pyRstrip s))) := by
  have hbase : getPublicIPAddress 0 s =
      (if validIPv4 (pyRstrip s) = true then .ok (pyRstrip s)
       else .error (.exited ("Invalid public IPv4 address: " ++ pyRstrip s))) := by
    unfold getPublicIPAddress
    rw [if_neg (by simp)]
  by_cases hv : validIPv4 (pyRstrip s) = true
  · rw [hbase, if_pos hv]
    refine ⟨⟨fun _ => (validIPv4_iff_spec _).mp hv, fun _ => rfl⟩, ?_, ?_⟩
    · intro ip h
      injection h with h
      exact h.symm
    · intro hns
      exact absurd ((validIPv4_iff_spec _).mp hv) hns
  · rw [hbase, if_neg hv]
    refine ⟨⟨?_, ?_⟩, ?_, ?_⟩
    · intro h
      exact absurd h (by simp)
    · intro hs
      exact absurd ((validIPv4_iff_spec _).mpr hs) hv
    · intro ip h
      exact absurd h (by simp)
    · intro _
      rfl

/-- Witness for the amended C3: a well-formed address with a single
trailing newline is accepted after stripping. -/
theorem claim_c3_amended_witness :
    getPublicIPAddress 0 "5.6.7.8\n" = .ok (pyRstrip "5.6.7.8\n") :=
  (claim_c3_amended "5.6.7.8\n").1.mpr
    ⟨"5", "6", "7", "8", ⟨by decide, by decide, by decide⟩, ⟨by decide, by decide, by decide⟩,
      ⟨by decide, by decide, by decide⟩, ⟨by decide, by decide, by decide⟩, by decide⟩

/-- Claim C4: `readLast` on a non-existent history log returns the `NotSet`
sentinel (not an error); on a log with at least one line it returns the
last whitespace-delimited token of the last line, regardless of the content
of the earlier lines. -/
theorem claim_c4 :
    readLastPublicIPAddress none = .ok "not set." ∧
    ∀ content (pre : List String) (line tok : String),
      pyLines content = pre ++ [line] →
      (pySplitWs line).getLast? = some tok →
      readLastPublicIPAddress (some content) = .ok tok := by
  refine ⟨rfl, ?_⟩
  intro content pre line tok h1 h2
  exact readLast_eval content line tok (by rw [h1]; exact getLast?_snoc _ _) h2

/-- Witness for C4: arbitrary earlier lines do not affect the answer. -/
theorem claim_c4_witness :
    readLastPublicIPAddress (some "junk\nnonsense here\n2020-01-01 1.2.3.4\n") =
      .ok "1.2.3.4" :=
  claim_c4.2 "junk\nnonsense here\n2020-01-01 1.2.3.4\n"
    ["junk\n", "nonsense here\n"] "2020-01-01 1.2.3.4\n" "1.2.3.4" (by decide) (by decide)

/-- Claim C5: for each configured record, in order, the reconciler matches
provider records by equality on name and type and uses the first match;
a record with no match yields a NotFound warning and processing continues.
On the spec's [(a,A),(b,A)] example with only `a` present, there is exactly
one update call and exactly one NotFound warning. -/
theorem claim_c5 :
    (∀ (env : Env) (dn : String) (recs : List DNSRecord) (ip : String),
      (∀ i d, env.save i d = .ok ()) →
      ∀ cfgs, processCfgRecords env dn recs ip cfgs = (specReconcile recs dn ip cfgs, none)) ∧
    updateDomainRecords c5Env "5.6.7.8" c5Domain =
      ([Event.listRecords "example.com", Event.updateRecord "example.com" 1 "5.6.7.8",
        Event.warnMissing "example.com" "b" "A"], none) ∧
    (updateDomainRecords c5Env "5.6.7.8" c5Domain).1.countP isUpdateCall = 1 ∧
    (updateDomainRecords c5Env "5.6.7.8" c5Domain).1.countP isMissingWarn = 1 := by
  refine ⟨?_, rfl, rfl, rfl⟩
  intro env dn recs ip hsave cfgs
  exact processCfgRecords_refines_spec env dn recs ip hsave cfgs

/-- Witness for C5: the refinement instantiated at a concrete environment
with all saves succeeding. -/
theorem claim_c5_witness :
    processCfgRecords exEnv "example.com"
        [{ id := 7, name := "home", type := "A", data := "1.2.3.4" }] "5.6.7.8"
        [{ name := "home", type := "A" }] =
      (specReconcile [{ id := 7, name := "home", type := "A", data := "1.2.3.4" }]
        "example.com" "5.6.7.8" [{ name := "home", type := "A" }], none) :=
  claim_c5.1 exEnv "example.com" _ "5.6.7.8" (fun _ _ => rfl) _

/-- Claim C6: a remote update call is issued for every matched record
unconditionally: the reconciliation loop never reads a provider record's
current value (changing every `data` field changes nothing), and in a
concrete environment whose provider record already holds the new address,
the update call is still made. -/
theorem claim_c6 :
    (∀ (env : Env) (dn ip : String) (recs : List DNSRecord) (f : DNSRecord → String)
       (cfgs : List CfgRecord),
      processCfgRecords env dn (recs.map fun r => { r with data := f r }) ip cfgs =
        processCfgRecords env dn recs ip cfgs) ∧
    c6Env.getRecords "example.com" =
      .ok [{ id := 7, name := "home", type := "A", data := "5.6.7.8" }] ∧
    updateDomainRecords c6Env "5.6.7.8"
        { name := "example.com", records := [{ name := "home", type := "A" }] } =
      ([Event.listRecords "example.com", Event.updateRecord "example.com" 7 "5.6.7.8"],
       none) :=
  ⟨fun env dn ip recs f cfgs => processCfgRecords_ignores_data env dn ip recs f cfgs,
   rfl, rfl⟩

/-- Claim C7 counterexample: with the history log path unwritable
(`PermissionError` on append), a changed run crashes with the uncaught
exception instead of warning and exiting successfully. -/
theorem claim_c7_counterexample :
    run { exEnv with logAccess := .permissionError } exCfg =
      { events := [Event.listRecords "example.com",
                   Event.updateRecord "example.com" 7 "5.6.7.8"],
        log := exEnv.logFile, outcome := .crashed "PermissionError" } := rfl

/-- Claim C7 (amended): only a `FileNotFoundError` from opening the history
log (absent containing directory) is caught, warned about, and survived;
a `PermissionError` (unwritable path) propagates and crashes the run. -/
theorem claim_c7_amended (env : Env) (cfg : Config) (ip last tok : String)
    (evs : List Event)
    (h1 : getPublicIPAddress env.digReturncode env.digStdout = .ok ip)
    (h2 : readLastPublicIPAddress env.logFile = .ok last)
    (h3 : readAccessToken env.tokenFile = .ok tok)
    (hne : last ≠ ip)
    (hpd : processDomains env ip cfg.domains = (evs, none)) :
    (env.logAccess = .fileNotFound →
      run env cfg = { events := evs ++ [Event.warnLogWrite], log := env.logFile,
                      outcome := .success }) ∧
    (env.logAccess = .permissionError →
      run env cfg = { events := evs, log := env.logFile,
                      outcome := .crashed "PermissionError" }) :=
  ⟨fun hacc => run_changed_warnlog env cfg ip last tok evs h1 h2 h3 hne hpd hacc,
   fun hacc => run_changed_permission env cfg ip last tok evs h1 h2 h3 hne hpd hacc⟩

/-- Witness for the amended C7: the FileNotFoundError case warns and the
run still succeeds. -/
theorem claim_c7_amended_witness :
    run { exEnv with logAccess := .fileNotFound } exCfg =
      { events := [Event.listRecords "example.com",
                   Event.updateRecord "example.com" 7 "5.6.7.8"] ++ [Event.warnLogWrite],
        log := exEnv.logFile, outcome := .success } := by
  have h := claim_c7_amended { exEnv with logAccess := .fileNotFound } exCfg
    "5.6.7.8" "1.2.3.4" "abc123" _ rfl rfl rfl (by decide) rfl
  exact h.1 rfl

/-- Claim C8 counterexample: appending to a log whose existing content does
not end in a newline merges with its last line: the line count stays 1
instead of increasing by one. -/
theorem claim_c8_counterexample :
    (pyLines "x").length = 1 ∧
    writeLastPublicIPAddress .ok (some "x") "2020-06-01T00:00:00-05:00" "5.6.7.8" =
      (some ("x" ++ ("2020-06-01T00:00:00-05:00" ++ " " ++ "5.6.7.8" ++ "\n")),
       [Event.historyAppend ("2020-06-01T00:00:00-05:00" ++ " " ++ "5.6.7.8" ++ "\n")],
       none) ∧
    (pyLines ("x" ++ ("2020-06-01T00:00:00-05:00" ++ " " ++ "5.6.7.8" ++ "\n"))).length = 1 :=
  ⟨by decide, by decide, by decide⟩

/-- Claim C8 (amended): for every log state that is empty, absent, or
newline-terminated — which includes every log this program itself writes —
a successful append increases the line count by exactly one, and `readLast`
immediately afterwards returns the appended address. -/
theorem claim_c8_amended (logFile : Option String) (ts ip : String)
    (hts : ∀ c ∈ ts.data, c ≠ '\n')
    (hip : validIPv4 ip = true)
    (hlog : (logFile.getD "").data = [] ∨ ∃ zs, (logFile.getD "").data = zs ++ ['\n']) :
    writeLastPublicIPAddress .ok logFile ts ip =
      (some ((logFile.getD "") ++ (ts ++ " " ++ ip ++ "\n")),
       [Event.historyAppend (ts ++ " " ++ ip ++ "\n")], none) ∧
    (pyLines ((logFile.getD "") ++ (ts ++ " " ++ ip ++ "\n"))).length =
      (pyLines (logFile.getD "")).length + 1 ∧
    readLastPublicIPAddress (some ((logFile.getD "") ++ (ts ++ " " ++ ip ++ "\n"))) =
      .ok ip := by
  obtain ⟨hlines, hread⟩ := append_line_roundtrip (logFile.getD "") ts ip hts hip hlog
  refine ⟨rfl, ?_, hread⟩
  rw [hlines]
  simp

/-- Witness for the amended C8: appending to a concrete newline-terminated
log and reading it back. -/
theorem claim_c8_amended_witness :
    readLastPublicIPAddress
        (some (((some "2020-01-01 1.2.3.4\n").getD "") ++
          ("T" ++ " " ++ "5.6.7.8" ++ "\n"))) = .ok "5.6.7.8" := by
  have h := claim_c8_amended (some "2020-01-01 1.2.3.4\n") "T" "5.6.7.8"
    (by decide) (by decide) (Or.inr ⟨"2020-01-01 1.2.3.4".data, by decide⟩)
  exact h.2.2

/-- Claim C9 counterexample: a credential file ending in a blank line has
"secrettoken" as the last token of its last non-empty line, but the code
takes the last line (blank) and crashes with IndexError instead of using
that credential. -/
theorem claim_c9_counterexample :
    readAccessToken (some "secrettoken\n\n") = .error (.crashed "IndexError") ∧
    lastNonEmptyLineToken "secrettoken\n\n" = some "secrettoken" :=
  ⟨rfl, by decide⟩

/-- Claim C9 (amended): a missing credential file exits with code 1 before
any provider call is attempted; when the file exists, the credential is the
last whitespace-delimited token of the file's last line (not last non-empty
line — a blank last line crashes instead). -/
theorem claim_c9_amended :
    (∀ (env : Env) (cfg : Config) (ip last : String),
      getPublicIPAddress env.digReturncode env.digStdout = .ok ip →
      readLastPublicIPAddress env.logFile = .ok last →
      env.tokenFile = none →
      run env cfg = { events := [], log := env.logFile,
                      outcome := .exited "Missing personal access token file." }) ∧
    (∀ content (pre : List String) (line tok : String),
      pyLines content = pre ++ [line] →
      (pySplitWs line).getLast? = some tok →
      readAccessToken (some content) = .ok tok) := by
  constructor
  · intro env cfg ip last h1 h2 hnone
    exact run_missing_token env cfg ip last h1 h2 hnone
  · intro content pre line tok h1 h2
    exact readToken_eval content line tok (by rw [h1]; exact getLast?_snoc _ _) h2

/-- Witness for the amended C9: a concrete run with a missing credential
file exits with the fatal message and zero provider events. -/
theorem claim_c9_amended_witness :
    run { exEnv with tokenFile := none } exCfg =
      { events := [], log := exEnv.logFile,
        outcome := .exited "Missing personal access token file." } :=
  claim_c9_amended.1 { exEnv with tokenFile := none } exCfg "5.6.7.8" "1.2.3.4" rfl rfl rfl

/-- Claim C10: `read_last_public_ip_address` is total only when the log is
absent or its last line contains a whitespace-delimited token: an empty
(zero-line) file raises an uncaught UnboundLocalError, a file whose last
line is blank raises an uncaught IndexError, and any successful read means
the last line had a token. -/
theorem claim_c10 :
    readLastPublicIPAddress (some "") = .error (.crashed "UnboundLocalError") ∧
    readLastPublicIPAddress (some "1.2.3.4\n\n") = .error (.crashed "IndexError") ∧
    ∀ content tok, readLastPublicIPAddress (some content) = .ok tok →
      ∃ line, (pyLines content).getLast? = some line ∧
        (pySplitWs line).getLast? = some tok := by
  refine ⟨rfl, rfl, ?_⟩
  intro content tok h
  cases h1 : (pyLines content).getLast? with
  | none => simp [readLastPublicIPAddress, h1] at h
  | some line =>
    cases h2 : (pySplitWs line).getLast? with
    | none => simp [readLastPublicIPAddress, h1, h2] at h
    | some tok2 =>
      simp only [readLastPublicIPAddress, h1, h2] at h
      injection h with h
      exact ⟨line, rfl, by rw [h2, h]⟩

/-- Witness for C10: a log whose last line carries a token reads
successfully. -/
theorem claim_c10_witness :
    ∃ line, (pyLines "2020-01-01 1.2.3.4\n").getLast? = some line ∧
      (pySplitWs line).getLast? = some "1.2.3.4" :=
  claim_c10.2.2 "2020-01-01 1.2.3.4\n" "1.2.3.4" rfl

end UpdateDNS
